import Mathlib

/-!
Verification of the `agent` repository (an interactive AI-agent runtime,
`agent.py` together with `cli_agent/core/builtin_tool_executor.py`) against its
natural-language specification.

The Python sources are shallowly embedded: every function below is a direct
translation of the corresponding Python function, with the process state
(file contents, socket traffic, curl results, the model's streamed chunks,
the summariser's answer) passed explicitly as arguments.  Python strings are
Lean `String`s, Python integers are `Nat`/`Int`, Python `None` is `Option`.

Python string primitives (`in`, `replace`, `count`, `strip`, `rstrip`,
`split('\n')`, `readlines`, `'{:6d}'.format`) are re-implemented on `List Char`
with the exact Python semantics (leftmost non-overlapping matching for
`replace`/`count`, the six-character Python whitespace class for stripping).
-/

/-- The Python whitespace class used by `str.strip` / `str.rstrip`:
space, tab, newline, carriage return, vertical tab, form feed. -/
def pyIsSpace (c : Char) : Bool :=
  c = ' ' || c = '\t' || c = '\n' || c = '\r' || c = '\x0b' || c = '\x0c'

/-- Python `s.rstrip()` on character lists: drop trailing whitespace. -/
def rstripL (l : List Char) : List Char :=
  (l.reverse.dropWhile pyIsSpace).reverse

/-- Python `s.rstrip()`: drop trailing whitespace. -/
def pyRstrip (s : String) : String :=
  String.mk (rstripL s.data)

/-- Python `s.strip()`: drop leading and trailing whitespace. -/
def pyStrip (s : String) : String :=
  String.mk (((s.data.dropWhile pyIsSpace).reverse.dropWhile pyIsSpace).reverse)

/-- Python substring test `needle in haystack` on character lists. -/
def containsSub (needle : List Char) : List Char → Bool
  | [] => needle.isPrefixOf []
  | c :: rest => needle.isPrefixOf (c :: rest) || containsSub needle rest

/-- Python `needle in haystack` for strings. -/
def pyInStr (needle haystack : String) : Bool :=
  containsSub needle.data haystack.data

/-- Python `s.replace(old, new)` on character lists: leftmost,
non-overlapping replacement of every occurrence. -/
def replaceAll (old new : List Char) : List Char → List Char
  | [] => []
  | c :: rest =>
    if old ≠ [] ∧ old.isPrefixOf (c :: rest) then
      new ++ replaceAll old new ((c :: rest).drop old.length)
    else
      c :: replaceAll old new rest
termination_by s => s.length
decreasing_by
  · rename_i h
    obtain ⟨h1, _⟩ := h
    cases old with
    | nil => exact absurd rfl h1
    | cons o os => simp [List.length_drop]; omega
  · simp

/-- Python `s.replace(old, new)` for strings. -/
def pyReplace (s old new : String) : String :=
  String.mk (replaceAll old.data new.data s.data)

/-- Python `s.count(sub)` on character lists: number of leftmost,
non-overlapping occurrences. -/
def countOccur (needle : List Char) : List Char → Nat
  | [] => 0
  | c :: rest =>
    if needle ≠ [] ∧ needle.isPrefixOf (c :: rest) then
      1 + countOccur needle ((c :: rest).drop needle.length)
    else
      countOccur needle rest
termination_by s => s.length
decreasing_by
  · rename_i h
    obtain ⟨h1, _⟩ := h
    cases needle with
    | nil => exact absurd rfl h1
    | cons o os => simp [List.length_drop]; omega
  · simp

/-- Python `s.count(sub)` for strings. -/
def pyCount (s needle : String) : Nat :=
  countOccur needle.data s.data

/-- Python `s.startswith(p)` for strings. -/
def pyStartsWith (s p : String) : Bool :=
  p.data.isPrefixOf s.data

/-- Helper for Python `s.split('\n')`: accumulate the current field. -/
def splitNlAux : List Char → List Char → List (List Char)
  | [], acc => [acc.reverse]
  | c :: rest, acc =>
    if c = '\n' then acc.reverse :: splitNlAux rest [] else splitNlAux rest (c :: acc)

/-- Python `s.split('\n')`. -/
def pySplitNl (s : String) : List String :=
  (splitNlAux s.data []).map String.mk

/-- Helper for Python `f.readlines()`: each line keeps its trailing `'\n'`. -/
def readlinesAux : List Char → List Char → List (List Char)
  | [], acc => if acc.isEmpty then [] else [acc.reverse]
  | c :: rest, acc =>
    if c = '\n' then (acc.reverse ++ ['\n']) :: readlinesAux rest []
    else readlinesAux rest (c :: acc)

/-- Python `f.readlines()` of a file whose content is `s`. -/
def pyReadlines (s : String) : List String :=
  (readlinesAux s.data []).map String.mk

/-- Python `'{:Nd}'.format(n)`: decimal rendering right-justified with
spaces to a minimum width. -/
def pyFmtWidth (w : Nat) (n : Nat) : String :=
  let s := toString n
  if s.length < w then String.mk (List.replicate (w - s.length) ' ') ++ s else s

/-- Python `repr` of a list of ints, as used by an f-string: `[1, 2, 3]`. -/
def pyListRepr (l : List Nat) : String :=
  "[" ++ String.intercalate ", " (l.map toString) ++ "]"

/-!
## Built-in file tools (`agent.py` and `builtin_tool_executor.py`)

Filesystem effects are made explicit: a tool that reads a file receives the
file's content as `Option String` (`none` = the file does not exist, raising
`FileNotFoundError` in Python); a tool that writes returns the written
content as `Option String` (`none` = nothing written) next to its reply text.
-/

/-- Embedding of `MCPAgent._read_file` (`agent.py`): number each line of the
requested window with `f"{i + 1:6d}→{lines[i].rstrip()}"`. -/
def read_file (file_path : String) (file : Option String) (offset : Int)
    (limit : Option Nat) : String :=
  if file_path = "" then "Error: No file path provided"
  else
    match file with
    | none => "Error: File not found: " ++ file_path
    | some content =>
      let lines := pyReadlines content
      let start_idx : Nat := (max 0 (offset - 1)).toNat
      let end_idx : Nat :=
        match limit with
        | none => lines.length
        | some l => min lines.length (start_idx + l)
      String.intercalate "\n"
        ((List.range' start_idx (end_idx - start_idx)).map
          (fun i => pyFmtWidth 6 (i + 1) ++ "→" ++ pyRstrip (lines.getD i "")))

/-- Embedding of `MCPAgent._write_file` (`agent.py`): full overwrite, reply
reports the character count. -/
def write_file (file_path content : String) : Option String × String :=
  if file_path = "" then (none, "Error: No file path provided")
  else (some content,
    "Successfully wrote " ++ toString content.length ++ " characters to " ++ file_path)

/-- Embedding of `MCPAgent._replace_in_file` (`agent.py`): `str.replace` of
every occurrence, reply reports `content.count(old_text)`. -/
def replace_in_file (file_path old_text new_text : String) (file : Option String) :
    Option String × String :=
  if file_path = "" then (none, "Error: No file path provided")
  else if old_text = "" then (none, "Error: No old text provided")
  else
    match file with
    | none => (none, "Error: File not found: " ++ file_path)
    | some content =>
      if ¬ pyInStr old_text content then
        (none, "Error: Text not found in file: " ++ old_text)
      else
        (some (pyReplace content old_text new_text),
         "Successfully replaced " ++ toString (pyCount content old_text) ++
           " occurrence(s) of text in " ++ file_path)

/-- Line indices whose text contains `first_line_stripped`
(`builtin_tool_executor.py`, the `matching_lines` comprehension). -/
def matchingLines (first_line_stripped : String) (lines : List String) : List Nat :=
  (lines.enum.filter (fun p => pyInStr first_line_stripped p.2)).map Prod.fst

/-- Embedding of `BuiltinToolExecutor.replace_in_file`
(`builtin_tool_executor.py`): `str.replace` of every occurrence; on a failed
match it re-searches with stripped whitespace and with the first line of
`old_text` to pick one of three error messages.  (The whitespace warnings it
logs do not affect the returned value and are not modelled.) -/
def replace_in_file_exec (file_path old_text new_text : String) (file : Option String) :
    Option String × String :=
  if file_path = "" then (none, "Error: No file path provided")
  else if old_text = "" then (none, "Error: No old text to replace provided")
  else
    match file with
    | none => (none, "Error: File not found: " ++ file_path)
    | some content =>
      if pyInStr old_text content then
        (some (pyReplace content old_text new_text),
         "Successfully replaced text in " ++ file_path)
      else if pyStrip old_text ≠ "" ∧ pyInStr (pyStrip old_text) content then
        (none, "Error: Text found but whitespace doesn't match in " ++ file_path ++
          ". Check for exact indentation, tabs vs spaces, and trailing whitespace. " ++
          "Use read_file to see exact formatting.")
      else if pySplitNl old_text ≠ [] ∧ pyStrip ((pySplitNl old_text).getD 0 "") ≠ "" ∧
          matchingLines (pyStrip ((pySplitNl old_text).getD 0 "")) (pySplitNl content) ≠ [] then
        (none, "Error: Text to replace not found in " ++ file_path ++
          ". Found similar text on line(s) " ++
          pyListRepr ((matchingLines (pyStrip ((pySplitNl old_text).getD 0 ""))
            (pySplitNl content)).take 3) ++
          " - check exact whitespace and indentation.")
      else
        (none, "Error: Text to replace not found in " ++ file_path ++
          ". Ensure you copy the exact text including all whitespace from read_file output.")

/-!
## Supporting lemmas on the Python string primitives
-/

/-- Replacing a pattern by itself is the identity. -/
theorem replaceAll_self (old : List Char) (s : List Char) : replaceAll old old s = s := by
  induction s using replaceAll.induct old old with
  | case1 => rw [replaceAll]
  | case2 c rest h ih =>
      rw [replaceAll, if_pos h]
      obtain ⟨h1, h2⟩ := h
      obtain ⟨t, ht⟩ := List.isPrefixOf_iff_prefix.mp h2
      rw [ih, ← ht, List.drop_left]
  | case3 c rest h ih => rw [replaceAll, if_neg h, ih]

/-- Replacing a pattern by itself is the identity (string level). -/
theorem pyReplace_self (s old : String) : pyReplace s old old = s := by
  simp [pyReplace, replaceAll_self]

/-- A string starts with any prefix split off by `++`. -/
theorem pyStartsWith_append (p s : String) : pyStartsWith (p ++ s) p = true := by
  simp [pyStartsWith, String.data_append]

/-!
## Claim C3 — `replace_in_file` semantics

Both implementations call `content.replace(old_text, new_text)`, which
replaces EVERY occurrence, not only the first one; the count reported by
`agent.py` is `content.count(old_text)`, the total number of occurrences.
-/

/-- C3 counterexample: on a file containing `"aa"`, replacing `"a"` by `"b"`
rewrites both occurrences (result `"bb"`, message reporting 2 occurrences),
not only the first one (which would give `"ba"`); the executor variant does
the same.  This refutes "replaces only the first occurrence of old_text". -/
theorem C3_counterexample :
    replace_in_file "f.txt" "a" "b" (some "aa") =
      (some "bb", "Successfully replaced 2 occurrence(s) of text in f.txt") ∧
    (replace_in_file_exec "f.txt" "a" "b" (some "aa")).1 = some "bb" ∧
    (some "bb" : Option String) ≠ some "ba" := by
  refine ⟨?_, ?_, by decide⟩ <;>
    simp +decide [replace_in_file, replace_in_file_exec, pyInStr, containsSub,
      pyReplace, replaceAll, pyCount, countOccur]

/-- C3 as amended: `replace_in_file` replaces every occurrence of `old_text`
literally; the `agent.py` variant reports the total occurrence count, and the
executor variant (which reports no count) distinguishes, when `old_text` is
absent, "text found with whitespace mismatch" (detected by re-searching with
trimmed whitespace) from the "text not found" errors. -/
theorem C3_replace_every_occurrence (path old new content : String)
    (hpath : path ≠ "") (hold : old ≠ "") :
    (pyInStr old content = true →
      replace_in_file path old new (some content) =
        (some (pyReplace content old new),
         "Successfully replaced " ++ toString (pyCount content old) ++
           " occurrence(s) of text in " ++ path)) ∧
    (pyInStr old content = true →
      replace_in_file_exec path old new (some content) =
        (some (pyReplace content old new),
         "Successfully replaced text in " ++ path)) ∧
    (pyInStr old content = false → pyStrip old ≠ "" →
      pyInStr (pyStrip old) content = true →
      replace_in_file_exec path old new (some content) =
        (none, "Error: Text found but whitespace doesn't match in " ++ path ++
          ". Check for exact indentation, tabs vs spaces, and trailing whitespace. " ++
          "Use read_file to see exact formatting.")) ∧
    (pyInStr old content = false →
      ¬ (pyStrip old ≠ "" ∧ pyInStr (pyStrip old) content = true) →
      (replace_in_file_exec path old new (some content)).1 = none ∧
      pyStartsWith (replace_in_file_exec path old new (some content)).2
        ("Error: Text to replace not found in " ++ path) = true) := by
  refine ⟨?_, ?_, ?_, ?_⟩
  · intro h
    simp [replace_in_file, hpath, hold, h]
  · intro h
    simp [replace_in_file_exec, hpath, hold, h]
  · intro h h1 h2
    simp [replace_in_file_exec, hpath, hold, h, h1, h2]
  · intro h h1
    simp only [replace_in_file_exec, if_neg hpath, if_neg hold, h]
    simp only [Bool.false_eq_true, if_false, if_neg h1]
    split
    · exact ⟨rfl, by rw [String.append_assoc, String.append_assoc]; exact pyStartsWith_append _ _⟩
    · exact ⟨rfl, by rw [String.append_assoc]; exact pyStartsWith_append _ _⟩

/-- C3 witness: the amended theorem applied at a concrete input. -/
theorem C3_witness :
    ("f.txt" : String) ≠ "" ∧ ("a" : String) ≠ "" ∧ pyInStr "a" "aba" = true ∧
    replace_in_file "f.txt" "a" "c" (some "aba") =
      (some (pyReplace "aba" "a" "c"),
       "Successfully replaced " ++ toString (pyCount "aba" "a") ++
         " occurrence(s) of text in " ++ "f.txt") :=
  ⟨by decide, by decide, by decide,
    (C3_replace_every_occurrence "f.txt" "a" "c" "aba" (by decide) (by decide)).1 (by decide)⟩

/-!
## Claim C4 — `replace_in_file` idempotence

Because `str.replace` rewrites every occurrence, replacing can reintroduce
`old_text` (for instance replacing `"ab"` by `"a"` in `"abb"` leaves `"ab"`),
so a second identical call does not always fail with "text not found".
-/

/-- C4 counterexample: after replacing `"ab"` by `"a"` in a file containing
`"abb"` (result `"ab"`), a second identical call succeeds again and modifies
the file to `"a"` instead of returning the "text not found" error. -/
theorem C4_counterexample :
    replace_in_file "f.txt" "ab" "a" (some "abb") =
      (some "ab", "Successfully replaced 1 occurrence(s) of text in f.txt") ∧
    replace_in_file "f.txt" "ab" "a" (some "ab") =
      (some "a", "Successfully replaced 1 occurrence(s) of text in f.txt") ∧
    (replace_in_file "f.txt" "ab" "a" (some "ab")).2 ≠
      "Error: Text not found in file: ab" := by
  refine ⟨?_, ?_, ?_⟩ <;>
    simp +decide [replace_in_file, pyInStr, containsSub, pyReplace, replaceAll,
      pyCount, countOccur]

/-- C4 as amended: `replace_in_file` is idempotent when `old_text = new_text`;
when they differ, a second call with identical arguments on the modified file
returns the "text not found" error exactly when the replacement did not
reintroduce `old_text` (as the counterexample shows, `new_text` can recreate
an occurrence of `old_text`, in which case the second call modifies the file
again). -/
theorem C4_idempotence (path old new content : String)
    (hpath : path ≠ "") (hold : old ≠ "") :
    (pyInStr old content = true →
      (replace_in_file path old old (some content)).1 = some content) ∧
    (pyInStr old content = true →
      pyInStr old (pyReplace content old new) = false →
      replace_in_file path old new (some (pyReplace content old new)) =
        (none, "Error: Text not found in file: " ++ old)) := by
  constructor
  · intro h
    simp [replace_in_file, hpath, hold, h, pyReplace_self]
  · intro _ h2
    simp [replace_in_file, hpath, hold, h2]

/-- C4 witness: the amended theorem applied at a concrete input (first call
rewrites `"ab"` to `"c"` in `"ab"`; the second call then fails to find the
text). -/
theorem C4_witness :
    ("f.txt" : String) ≠ "" ∧ ("ab" : String) ≠ "" ∧
    replace_in_file "f.txt" "ab" "c" (some (pyReplace "ab" "ab" "c")) =
      (none, "Error: Text not found in file: " ++ "ab") :=
  ⟨by decide, by decide,
    (C4_idempotence "f.txt" "ab" "c" "ab" (by decide) (by decide)).2 (by decide)
      (by simp +decide [pyInStr, containsSub, pyReplace, replaceAll])⟩

/-!
## Claim C5 — `write_file` / `read_file` round trip

`_read_file` renders `f"{i + 1:6d}→{lines[i].rstrip()}"`: the `rstrip()`
removes the newline terminator but also any trailing spaces and tabs, so the
line text is not returned unchanged.
-/

/-- Helper for splitting a text into its lines per the claim's words:
line terminators are dropped and a trailing newline produces no extra line
(Python's `str.splitlines` on `'\n'`-separated text). -/
def claimLinesAux : List Char → List Char → List (List Char)
  | [], acc => if acc.isEmpty then [] else [acc.reverse]
  | c :: rest, acc =>
    if c = '\n' then acc.reverse :: claimLinesAux rest []
    else claimLinesAux rest (c :: acc)

/-- The lines of a text, as the claim's words describe them. -/
def claimLines (s : String) : List String :=
  (claimLinesAux s.data []).map String.mk

/-- Formalised from the claim's words (C5): every line of `c` prefixed with
its 1-based line number in a 6-character-wide field followed by `→`, the line
text otherwise unchanged. -/
def claimReadRendering (c : String) : String :=
  String.intercalate "\n"
    ((claimLines c).enum.map (fun p => pyFmtWidth 6 (p.1 + 1) ++ "→" ++ p.2))

/-- The C5 rendering as amended: same, except that each line's trailing
whitespace is stripped (which is what `rstrip()` does). -/
def claimReadRenderingStripped (c : String) : String :=
  String.intercalate "\n"
    ((claimLines c).enum.map (fun p => pyFmtWidth 6 (p.1 + 1) ++ "→" ++ pyRstrip p.2))

/-- Stripping trailing whitespace ignores a line terminator kept by
`readlines`. -/
theorem rstripL_append_newline (l : List Char) : rstripL (l ++ ['\n']) = rstripL l := by
  simp [rstripL, List.dropWhile, pyIsSpace]

/-- After `rstrip`, the `readlines` split and the claim's line split agree. -/
theorem readlinesAux_rstrip (s : List Char) :
    ∀ acc, (readlinesAux s acc).map rstripL = (claimLinesAux s acc).map rstripL := by
  induction s with
  | nil => intro acc; rfl
  | cons c rest ih =>
      intro acc
      by_cases h : c = '\n'
      · simp only [readlinesAux, claimLinesAux, if_pos h, List.map_cons,
          rstripL_append_newline, ih]
      · simp only [readlinesAux, claimLinesAux, if_neg h, ih]

/-- After `rstrip`, `readlines` and the claim's lines agree (string level). -/
theorem pyReadlines_rstrip (c : String) :
    (pyReadlines c).map pyRstrip = (claimLines c).map pyRstrip := by
  simp only [pyReadlines, claimLines, List.map_map]
  have : (pyRstrip ∘ String.mk) = (String.mk ∘ rstripL) := rfl
  rw [this, ← List.map_map, ← List.map_map, readlinesAux_rstrip]

/-- Indexing over `range'` from zero with `getD` is enumeration. -/
theorem range'_map_getD {α β : Type} (g : ℕ → α → β) (d : α) (l : List α) :
    (List.range' 0 l.length).map (fun i => g i (l[i]?.getD d)) =
      l.enum.map (fun p => g p.1 p.2) := by
  apply List.ext_getElem
  · simp
  · intro i h1 h2
    simp only [List.getElem_map, List.getElem_range', List.getElem_enum]
    rw [List.getElem?_eq_getElem (by simpa using h2)]
    simp

/-- Enumeration pushed through a pointwise map of the values. -/
theorem enum_map_factor {α β γ : Type} (r : α → β) (g : ℕ → β → γ) (l : List α) :
    l.enum.map (fun p => g p.1 (r p.2)) = (l.map r).enum.map (fun p => g p.1 p.2) := by
  rw [List.enum_map]
  simp [List.map_map, Function.comp, Prod.map]

/-- C5 counterexample: writing `"a "` (trailing space) and reading it back
yields `"     1→a"`: the `rstrip()` in `_read_file` also removed the trailing
space, so the line text is not "otherwise unchanged" as the claim states. -/
theorem C5_counterexample :
    read_file "f.txt" (write_file "f.txt" "a ").1 1 none = "     1→a" ∧
    claimReadRendering "a " = "     1→a " ∧
    ("     1→a" : String) ≠ "     1→a " := by
  refine ⟨by decide, by decide, by decide⟩

/-- C5 as amended: for every path and content `c`, `write_file(path, c)`
followed by `read_file(path, offset=1)` yields `c` split into its lines, each
line prefixed with its 1-based line number in a 6-character-wide field
followed by `→`, with the line's trailing whitespace stripped and the line
text otherwise unchanged. -/
theorem C5_write_read_round_trip (path c : String) (hpath : path ≠ "") :
    (write_file path c).1 = some c ∧
    read_file path (write_file path c).1 1 none = claimReadRenderingStripped c := by
  have hw : (write_file path c).1 = some c := by simp [write_file, hpath]
  refine ⟨hw, ?_⟩
  rw [hw]
  show read_file path (some c) 1 none = claimReadRenderingStripped c
  simp only [read_file, if_neg hpath, claimReadRenderingStripped]
  norm_num
  rw [range'_map_getD (fun i line => pyFmtWidth 6 (i + 1) ++ "→" ++ pyRstrip line) "" (pyReadlines c)]
  rw [enum_map_factor pyRstrip (fun i line => pyFmtWidth 6 (i + 1) ++ "→" ++ line) (pyReadlines c)]
  rw [enum_map_factor pyRstrip (fun i line => pyFmtWidth 6 (i + 1) ++ "→" ++ line) (claimLines c)]
  rw [pyReadlines_rstrip]

/-- C5 witness: the amended round trip at a concrete two-line content. -/
theorem C5_witness :
    ("f.txt" : String) ≠ "" ∧
    ((write_file "f.txt" "x\nyz").1 = some "x\nyz" ∧
     read_file "f.txt" (write_file "f.txt" "x\nyz").1 1 none =
       claimReadRenderingStripped "x\nyz") :=
  ⟨by decide, C5_write_read_round_trip "f.txt" "x\nyz" (by decide)⟩

/-!
## Conversation messages, token accounting and compaction (`agent.py`)
-/

/-- A conversation message as used by token counting and compaction (only
`role` and `content` are read; `content` is modelled as the string it is for
every message these functions build, a `None` content counting as `""`, which
contributes the same 0 content tokens that Python's `isinstance` guard
skips). -/
structure Message where
  role : String
  content : String
deriving DecidableEq

/-- Embedding of `MCPAgent.estimate_tokens`: `len(text) // 4`. -/
def estimate_tokens (text : String) : Nat :=
  text.length / 4

/-- Embedding of `MCPAgent.count_conversation_tokens`: content estimate plus
a 10-token overhead per message (the Python `for` loop accumulates exactly
this sum). -/
def count_conversation_tokens (messages : List Message) : Nat :=
  (messages.map (fun m => estimate_tokens m.content + 10)).sum

/-- The token-limit table of `MCPAgent._get_model_token_limits`, in its
Python insertion order. -/
def model_token_limits : List (String × Nat) :=
  [("deepseek-reasoner", 128000), ("deepseek-chat", 64000),
   ("gemini-pro", 128000), ("pro", 128000),
   ("gemini-flash", 64000), ("flash", 64000),
   ("gpt-4", 128000), ("gpt-3.5", 16000), ("claude", 200000)]

/-- Python `s.lower()` (ASCII model names only appear in the table). -/
def pyLower (s : String) : String :=
  String.mk (s.data.map Char.toLower)

/-- Embedding of `MCPAgent.get_token_limit`: exact lookup, then substring
pattern fallback over the table in order, then the conservative 32000
default.  `model_name = none` models `_get_current_model_name` returning
`None`; the empty string is falsy in Python and also falls through. -/
def get_token_limit (model_name : Option String) : Nat :=
  match model_name with
  | none => 32000
  | some name =>
    if name ≠ "" ∧ (model_token_limits.lookup name).isSome then
      (model_token_limits.lookup name).getD 32000
    else if name ≠ "" then
      match model_token_limits.find? (fun p => pyInStr p.1 (pyLower name)) with
      | some p => p.2
      | none => 32000
    else 32000

/-- Embedding of `MCPAgent.should_compact`:
`current_tokens > limit * 0.8`.  The Python comparison is on floats; for
every limit in the table and for the 32000 default, the double `limit * 0.8`
is exactly the real number `limit * 4/5` (the rounding error of the product
is below half an ulp), so comparing the integer token count against it is
exactly this rational comparison. -/
def should_compact (messages : List Message) (model_name : Option String) : Bool :=
  decide ((count_conversation_tokens messages : ℚ) >
    (get_token_limit model_name : ℚ) * (8 / 10))

/-- Embedding of `MCPAgent.compact_conversation`.  The single effectful step
— asking the current model for a summary — is passed in as `summaryOutcome`:
`Except.ok s` models `generate_response` returning `s`, `Except.error ()`
models it raising (the fallback path). -/
def compact_conversation (summaryOutcome : Except Unit String)
    (messages : List Message) : List Message :=
  if messages.length ≤ 3 then messages
  else
    let system_message : Option Message :=
      match messages with
      | [] => none
      | m :: _ => if m.role = "system" then some m else none
    let recent_messages := messages.drop (messages.length - 2)
    let start_idx := if system_message.isSome then 1 else 0
    let messages_to_summarize := (messages.take (messages.length - 2)).drop start_idx
    if messages_to_summarize.isEmpty then messages
    else
      match summaryOutcome with
      | Except.ok summary_response =>
          system_message.toList ++
            (⟨"system", "[CONVERSATION SUMMARY] " ++ summary_response⟩ : Message) ::
            recent_messages
      | Except.error _ =>
          system_message.toList ++ messages.drop (messages.length - 5)

/-- Token counting is additive over concatenation. -/
theorem count_conversation_tokens_append (a b : List Message) :
    count_conversation_tokens (a ++ b) =
      count_conversation_tokens a + count_conversation_tokens b := by
  simp [count_conversation_tokens]

/-!
## Claim C8 — compaction threshold

`should_compact` uses a strict comparison `current_tokens > limit * 0.8`, so
a conversation sitting at exactly 80% of the limit does NOT trigger
compaction.
-/

/-- C8 counterexample: 5120 empty user messages are exactly 51200 estimated
tokens, which is exactly 80% of the 64000-token limit of `deepseek-chat`,
and `should_compact` is `false` there — refuting "at a count equal to 80% of
the limit it triggers". -/
theorem C8_counterexample :
    5 * count_conversation_tokens (List.replicate 5120 ⟨"user", ""⟩) =
      4 * get_token_limit (some "deepseek-chat") ∧
    should_compact (List.replicate 5120 ⟨"user", ""⟩) (some "deepseek-chat") = false := by
  have hc : count_conversation_tokens (List.replicate 5120 ⟨"user", ""⟩) = 51200 := by
    rw [count_conversation_tokens, List.map_replicate, List.sum_replicate]
    norm_num [estimate_tokens]
  have hl : get_token_limit (some "deepseek-chat") = 64000 := by decide
  refine ⟨by rw [hc, hl], ?_⟩
  rw [should_compact, hc, hl, decide_eq_false_iff_not]
  norm_num

/-- C8 as amended: compaction is triggered exactly when the estimated token
count STRICTLY exceeds 0.8 times the current model's token limit; in
particular, at a count equal to 80% of the limit it does not trigger (the
counterexample), and at 79% of the limit it does not either. -/
theorem C8_threshold (messages : List Message) (model_name : Option String) :
    should_compact messages model_name = true ↔
      5 * count_conversation_tokens messages > 4 * get_token_limit model_name := by
  rw [should_compact, decide_eq_true_eq]
  constructor
  · intro h
    have h5 : (4 * get_token_limit model_name : ℚ) <
        5 * count_conversation_tokens messages := by
      rw [gt_iff_lt] at h
      linarith
    exact_mod_cast h5
  · intro h
    have h5 : (4 * get_token_limit model_name : ℚ) <
        5 * count_conversation_tokens messages := by exact_mod_cast h
    rw [gt_iff_lt]
    linarith

/-!
## Claim C2 — compaction invariants

The first message (when it is a system message) and the last two messages
are preserved on both the success and the fallback path.  The total
estimated token count, however, does not always decrease strictly: the
summary message the model returns can be larger than the middle it replaces.
-/

/-- Take of a cons with a positive count has a nonempty tail once at least
two elements are taken. -/
theorem take_cons_tail_ne_nil (m0 : Message) (rest : List Message) (k : Nat)
    (hk : 1 ≤ k) (hr : 1 ≤ rest.length) :
    (List.take (k + 1) (m0 :: rest)).tail ≠ [] := by
  rw [List.take_succ_cons, List.tail_cons]
  intro hc
  rcases List.take_eq_nil_iff.mp hc with h | h
  · omega
  · rw [h] at hr; simp at hr

/-- Shape of compaction on the success path. -/
theorem compact_conversation_ok (messages : List Message) (resp : String)
    (h4 : 3 < messages.length) :
    compact_conversation (Except.ok resp) messages =
      (if (messages.head?.map Message.role) = some "system"
        then messages.take 1 else []) ++
      (⟨"system", "[CONVERSATION SUMMARY] " ++ resp⟩ : Message) ::
        messages.drop (messages.length - 2) := by
  obtain ⟨m0, rest, rfl⟩ : ∃ m0 rest, messages = m0 :: rest := by
    cases messages with
    | nil => simp at h4
    | cons a l => exact ⟨a, l, rfl⟩
  have h3 : 3 ≤ rest.length := by simp at h4; omega
  have hne : (List.take (rest.length - 1) (m0 :: rest)).tail ≠ [] := by
    have : rest.length - 1 = (rest.length - 2) + 1 := by omega
    rw [this]
    exact take_cons_tail_ne_nil m0 rest _ (by omega) (by omega)
  rw [compact_conversation, if_neg (by omega)]
  by_cases hrole : m0.role = "system"
  · simp only [hrole, if_pos rfl]
    simp [hrole]
    intro hfalse
    exact absurd hfalse hne
  · simp only [if_neg hrole]
    simp [hrole]
    intro hfalse
    omega

/-- Shape of compaction on the fallback (summariser-failed) path. -/
theorem compact_conversation_err (messages : List Message) (e : Unit)
    (h4 : 3 < messages.length) :
    compact_conversation (Except.error e) messages =
      (if (messages.head?.map Message.role) = some "system"
        then messages.take 1 else []) ++
      messages.drop (messages.length - 5) := by
  obtain ⟨m0, rest, rfl⟩ : ∃ m0 rest, messages = m0 :: rest := by
    cases messages with
    | nil => simp at h4
    | cons a l => exact ⟨a, l, rfl⟩
  have h3 : 3 ≤ rest.length := by simp at h4; omega
  have hne : (List.take (rest.length - 1) (m0 :: rest)).tail ≠ [] := by
    have : rest.length - 1 = (rest.length - 2) + 1 := by omega
    rw [this]
    exact take_cons_tail_ne_nil m0 rest _ (by omega) (by omega)
  rw [compact_conversation, if_neg (by omega)]
  by_cases hrole : m0.role = "system"
  · simp only [hrole, if_pos rfl]
    simp [hrole]
    intro hfalse
    exact absurd hfalse hne
  · simp only [if_neg hrole]
    simp [hrole]
    intro hfalse
    omega

/-- Dropping all but two of an appended list ignores the prefix when the
suffix has at least two elements. -/
theorem drop_len_sub_two_append (a t : List Message) (ht : 2 ≤ t.length) :
    (a ++ t).drop ((a ++ t).length - 2) = t.drop (t.length - 2) := by
  have h : (a ++ t).length - 2 = a.length + (t.length - 2) := by
    simp only [List.length_append]; omega
  rw [h, List.drop_append]

/-- C2 counterexample: on a 4-message conversation of empty contents whose
summarisation returns the empty summary, the compacted conversation counts
45 estimated tokens against 40 before — the total does NOT strictly
decrease, because the inserted `[CONVERSATION SUMMARY] ` message costs more
than the empty middle message it replaces. -/
theorem C2_counterexample :
    ¬ (count_conversation_tokens
        (compact_conversation (Except.ok "")
          [⟨"system", ""⟩, ⟨"user", ""⟩, ⟨"user", ""⟩, ⟨"user", ""⟩]) <
      count_conversation_tokens
        [⟨"system", ""⟩, ⟨"user", ""⟩, ⟨"user", ""⟩, ⟨"user", ""⟩]) := by
  decide

/-- C2 as amended: for every conversation of more than 3 messages, the
compacted list starts with the pre-compaction first message whenever that
message had role `system`, and ends with the last two pre-compaction
messages unchanged (both also on the fallback path); the total estimated
token count strictly decreases on the success path provided the estimated
tokens of the single inserted summary message are strictly smaller than
those of the replaced middle messages (the counterexample shows that without
this proviso the total can grow). -/
theorem C2_compaction (outcome : Except Unit String) (messages : List Message)
    (h4 : 3 < messages.length) :
    (messages.head?.map Message.role = some "system" →
      (compact_conversation outcome messages).head? = messages.head?) ∧
    (compact_conversation outcome messages).drop
        ((compact_conversation outcome messages).length - 2) =
      messages.drop (messages.length - 2) ∧
    (∀ resp, outcome = Except.ok resp →
      estimate_tokens ("[CONVERSATION SUMMARY] " ++ resp) + 10 <
        count_conversation_tokens
          ((messages.take (messages.length - 2)).drop
            (if messages.head?.map Message.role = some "system" then 1 else 0)) →
      count_conversation_tokens (compact_conversation outcome messages) <
        count_conversation_tokens messages) := by
  refine ⟨?_, ?_, ?_⟩
  · intro hsys
    cases outcome with
    | ok resp =>
        rw [compact_conversation_ok messages resp h4, if_pos hsys]
        cases messages with
        | nil => simp at h4
        | cons m0 rest => simp
    | error e =>
        rw [compact_conversation_err messages e h4, if_pos hsys]
        cases messages with
        | nil => simp at h4
        | cons m0 rest => simp
  · cases outcome with
    | ok resp =>
        rw [compact_conversation_ok messages resp h4]
        have hrec : (messages.drop (messages.length - 2)).length = 2 := by
          rw [List.length_drop]; omega
        rw [drop_len_sub_two_append _ _ (by simp [hrec])]
        simp [hrec]
    | error e =>
        rw [compact_conversation_err messages e h4]
        rw [drop_len_sub_two_append _ _ (by rw [List.length_drop]; omega)]
        rw [List.length_drop, List.drop_drop]
        congr 1
        omega
  · intro resp hout htok
    subst hout
    rw [compact_conversation_ok messages resp h4]
    have hdecomp : count_conversation_tokens messages =
        count_conversation_tokens ((messages.take (messages.length - 2)).take
          (if messages.head?.map Message.role = some "system" then 1 else 0)) +
        count_conversation_tokens ((messages.take (messages.length - 2)).drop
          (if messages.head?.map Message.role = some "system" then 1 else 0)) +
        count_conversation_tokens (messages.drop (messages.length - 2)) := by
      conv_lhs => rw [← List.take_append_drop (messages.length - 2) messages]
      rw [count_conversation_tokens_append,
        ← List.take_append_drop
          (if messages.head?.map Message.role = some "system" then 1 else 0)
          (messages.take (messages.length - 2)),
        count_conversation_tokens_append]
      ring_nf
      rw [List.take_append_drop]
      ring
    have hsysl : (if messages.head?.map Message.role = some "system"
          then messages.take 1 else []) =
        ((messages.take (messages.length - 2)).take
          (if messages.head?.map Message.role = some "system" then 1 else 0)) := by
      by_cases hs : messages.head?.map Message.role = some "system"
      · rw [if_pos hs, if_pos hs, List.take_take]
        congr 1
        omega
      · rw [if_neg hs, if_neg hs, List.take_zero]
    rw [count_conversation_tokens_append, hsysl, hdecomp]
    have hcons : count_conversation_tokens
        ((⟨"system", "[CONVERSATION SUMMARY] " ++ resp⟩ : Message) ::
          messages.drop (messages.length - 2)) =
        (estimate_tokens ("[CONVERSATION SUMMARY] " ++ resp) + 10) +
          count_conversation_tokens (messages.drop (messages.length - 2)) := by
      simp [count_conversation_tokens]
    rw [hcons]
    omega

/-- C2 witness: a 4-message conversation with a 40-character middle message
compacted with the empty summary; the token total drops from 60 to 55. -/
theorem C2_witness :
    3 < ([⟨"system", "s"⟩, ⟨"user", "0123456789012345678901234567890123456789"⟩,
          ⟨"user", ""⟩, ⟨"user", ""⟩] : List Message).length ∧
    count_conversation_tokens
        (compact_conversation (Except.ok "")
          [⟨"system", "s"⟩, ⟨"user", "0123456789012345678901234567890123456789"⟩,
           ⟨"user", ""⟩, ⟨"user", ""⟩]) <
      count_conversation_tokens
        [⟨"system", "s"⟩, ⟨"user", "0123456789012345678901234567890123456789"⟩,
         ⟨"user", ""⟩, ⟨"user", ""⟩] :=
  ⟨by decide,
    (C2_compaction (Except.ok "")
      [⟨"system", "s"⟩, ⟨"user", "0123456789012345678901234567890123456789"⟩,
       ⟨"user", ""⟩, ⟨"user", ""⟩] (by decide)).2.2 "" rfl (by decide)⟩

/-!
## Tool dispatch and subagent forwarding (`agent.py`)

`_execute_mcp_tool` resolves a tool key in `available_tools` and decides
between four outcomes: unknown-tool error, forwarding to the parent over the
control socket (subagent role), running the built-in executor, or calling
the remote client.  The decision is pure given the registry and the two
flags, so it is embedded as a function into a routing datatype.
-/

/-- A registry entry: the fields of `available_tools[tool_key]` the
dispatcher reads (`name`, `server`, and whether `client` is non-`None`). -/
structure ToolEntry where
  name : String
  server : String
  client_present : Bool
deriving DecidableEq

/-- The subagent-management tools that are never forwarded
(`excluded_tools` in `_execute_mcp_tool`). -/
def excluded_tools : List String :=
  ["task", "task_status", "task_results"]

/-- Python `repr` of a list of strings, as an f-string renders
`available_list`. -/
def pyStrListRepr (l : List String) : String :=
  "[" ++ String.intercalate ", " (l.map (fun s => "\x27" ++ s ++ "\x27")) ++ "]"

/-- The routing decision taken by `_execute_mcp_tool`. -/
inductive DispatchRoute where
  | tool_not_found (msg : String)
  | forward_to_parent (tool_key tool_name : String)
  | builtin_local (tool_name : String)
  | client_missing (msg : String)
  | remote_call (tool_key tool_name : String)
deriving DecidableEq

/-- Embedding of the routing logic of `MCPAgent._execute_mcp_tool`:
not-found check, then the subagent-forwarding gate (subagent role AND a live
comm socket AND a tool outside `excluded_tools`), then builtin vs remote. -/
def execute_mcp_tool_route (available_tools : List (String × ToolEntry))
    (is_subagent has_comm_socket : Bool) (tool_key : String) : DispatchRoute :=
  match available_tools.lookup tool_key with
  | none =>
      DispatchRoute.tool_not_found
        ("Error: Tool " ++ tool_key ++ " not found. Available tools: " ++
          pyStrListRepr ((available_tools.map Prod.fst).take 10))
  | some info =>
      if is_subagent = true ∧ has_comm_socket = true ∧ ¬ info.name ∈ excluded_tools then
        DispatchRoute.forward_to_parent tool_key info.name
      else if info.server = "builtin" then
        DispatchRoute.builtin_local info.name
      else if info.client_present = false then
        DispatchRoute.client_missing ("Error: No client session for tool " ++ tool_key)
      else
        DispatchRoute.remote_call tool_key info.name

/-- The `tool_execution_request` message `_forward_tool_to_parent` sends
(its real-time `timestamp` field is not modelled). -/
structure ForwardRequest where
  type : String
  request_id : String
  tool_key : String
  tool_name : String
deriving DecidableEq

/-- Embedding of the message construction in `_forward_tool_to_parent`;
`request_id` is the fresh `uuid.uuid4()` value, passed in explicitly. -/
def make_forward_request (request_id tool_key tool_name : String) : ForwardRequest :=
  { type := "tool_execution_request", request_id := request_id,
    tool_key := tool_key, tool_name := tool_name }

/-- The `response_timeout` of `_forward_tool_to_parent`, in seconds. -/
def forward_response_timeout_seconds : Nat := 300

/-- A decoded control-socket envelope as `_forward_tool_to_parent` reads it:
`type`, `request_id`, `success` (`.get("success", False)`), and the optional
`result` / `error` payloads. -/
structure CtrlResponse where
  type : String
  request_id : String
  success : Bool
  result : Option String
  error : Option String
deriving DecidableEq

/-- Embedding of the response loop of `_forward_tool_to_parent`: scan the
incoming newline-delimited envelopes, skip everything that is not a
`tool_execution_response` with the matching `request_id`, and on the match
return the upstream result (success) or the wrapped upstream error; an
exhausted stream is the no-response error. -/
def forward_wait_response (request_id tool_name : String) :
    List CtrlResponse → String
  | [] => "Error: No response received from parent for tool " ++ tool_name
  | r :: rest =>
    if r.type = "tool_execution_response" ∧ r.request_id = request_id then
      if r.success then
        r.result.getD "Tool executed successfully"
      else
        "Error from parent: " ++ r.error.getD "Unknown error"
    else
      forward_wait_response request_id tool_name rest

/-- C7: in the dispatcher, a subagent with an upstream control socket
forwards every registered tool outside {task, task_status, task_results} as
a `tool_execution_request` carrying the fresh `request_id` (and waits up to
300 s); the reply loop returns the upstream result of the matching
`tool_execution_response` on success and the upstream error otherwise,
skipping non-matching envelopes; the three task tools are never forwarded
and, being builtin, always execute locally. -/
theorem C7_subagent_forwarding (available_tools : List (String × ToolEntry))
    (tool_key rid : String) (info : ToolEntry)
    (hlook : available_tools.lookup tool_key = some info) :
    (¬ info.name ∈ excluded_tools →
      execute_mcp_tool_route available_tools true true tool_key =
        DispatchRoute.forward_to_parent tool_key info.name) ∧
    ((make_forward_request rid tool_key info.name).type = "tool_execution_request" ∧
      (make_forward_request rid tool_key info.name).request_id = rid ∧
      forward_response_timeout_seconds = 300) ∧
    (∀ rest res, forward_wait_response rid info.name
        ({ type := "tool_execution_response", request_id := rid, success := true,
           result := some res, error := none } :: rest) = res) ∧
    (∀ rest err, forward_wait_response rid info.name
        ({ type := "tool_execution_response", request_id := rid, success := false,
           result := none, error := some err } :: rest) =
        "Error from parent: " ++ err) ∧
    (∀ r rest, ¬ (r.type = "tool_execution_response" ∧ r.request_id = rid) →
      forward_wait_response rid info.name (r :: rest) =
        forward_wait_response rid info.name rest) ∧
    (info.name ∈ excluded_tools → ∀ sub sock : Bool,
      (∀ k n, execute_mcp_tool_route available_tools sub sock tool_key ≠
        DispatchRoute.forward_to_parent k n) ∧
      (info.server = "builtin" →
        execute_mcp_tool_route available_tools sub sock tool_key =
          DispatchRoute.builtin_local info.name)) := by
  refine ⟨?_, ⟨rfl, rfl, rfl⟩, ?_, ?_, ?_, ?_⟩
  · intro hexcl
    simp only [execute_mcp_tool_route, hlook]
    rw [if_pos ⟨trivial, trivial, hexcl⟩]
  · intro rest res
    rw [forward_wait_response, if_pos ⟨rfl, rfl⟩]
    rfl
  · intro rest err
    rw [forward_wait_response, if_pos ⟨rfl, rfl⟩]
    rfl
  · intro r rest hnm
    rw [forward_wait_response, if_neg hnm]
  · intro hexcl sub sock
    constructor
    · intro k n
      simp only [execute_mcp_tool_route, hlook]
      rw [if_neg (by simp [hexcl])]
      split
      · intro hc; exact DispatchRoute.noConfusion hc
      · split
        · intro hc; exact DispatchRoute.noConfusion hc
        · intro hc; exact DispatchRoute.noConfusion hc
    · intro hbuiltin
      simp only [execute_mcp_tool_route, hlook]
      rw [if_neg (by simp [hexcl]), if_pos hbuiltin]

/-- C7 witness: a two-tool registry where `builtin:read_file` forwards and
`builtin:task` stays local. -/
theorem C7_witness :
    ([("builtin:read_file", ⟨"read_file", "builtin", false⟩),
      ("builtin:task", ⟨"task", "builtin", false⟩)] :
        List (String × ToolEntry)).lookup "builtin:read_file" =
      some ⟨"read_file", "builtin", false⟩ ∧
    execute_mcp_tool_route
        [("builtin:read_file", ⟨"read_file", "builtin", false⟩),
         ("builtin:task", ⟨"task", "builtin", false⟩)] true true "builtin:read_file" =
      DispatchRoute.forward_to_parent "builtin:read_file" "read_file" :=
  ⟨by decide,
    (C7_subagent_forwarding
      [("builtin:read_file", ⟨"read_file", "builtin", false⟩),
       ("builtin:task", ⟨"task", "builtin", false⟩)]
      "builtin:read_file" "r1" ⟨"read_file", "builtin", false⟩ (by decide)).1
      (by decide)⟩

/-!
## `webfetch` (`agent.py`) and the error-string policy
-/

/-- A completed `subprocess.run(["curl", ...])`: return code plus the
decoded stdout and stderr texts. -/
structure CurlResult where
  returncode : Int
  stdout_text : String
  stderr_text : String
deriving DecidableEq

/-- Embedding of `MCPAgent._webfetch` (`agent.py`) given the curl outcome:
URL validation, the curl-failure error (optionally carrying partial
content), and line-limit truncation with the explicit marker. -/
def webfetch (url : String) (limit : Option Nat) (curl : CurlResult) : String :=
  if url = "" then "Error: No URL provided"
  else if curl.returncode ≠ 0 then
    if pyStrip curl.stdout_text ≠ "" then
      "Error fetching URL (curl return code " ++ toString curl.returncode ++ "): " ++
        curl.stderr_text ++ "\n\nContent retrieved:\n" ++ curl.stdout_text
    else
      "Error fetching URL (curl return code " ++ toString curl.returncode ++ "): " ++
        curl.stderr_text
  else
    match limit with
    | some l =>
      if 0 < l then
        if l < (pySplitNl curl.stdout_text).length then
          String.intercalate "\n" ((pySplitNl curl.stdout_text).take l) ++
            "\n\n[Content truncated at " ++ toString l ++ " lines. Original had " ++
            toString (pySplitNl curl.stdout_text).length ++ " lines.]"
        else curl.stdout_text
      else curl.stdout_text
    | none => curl.stdout_text

/-- Prefixes survive appending on the right. -/
theorem pyStartsWith_append_left (a b p : String) (h : pyStartsWith a p = true) :
    pyStartsWith (a ++ b) p = true := by
  simp only [pyStartsWith, String.data_append] at *
  rw [List.isPrefixOf_iff_prefix] at h ⊢
  exact h.trans (List.prefix_append _ _)

/-- C9 counterexample: a failed curl fetch (DNS error, return code 6)
produces `"Error fetching URL (curl return code 6): ..."`, an error outcome
that does not begin with `"Error: "`. -/
theorem C9_counterexample :
    webfetch "http://example.com" (some 1000)
        ⟨6, "", "curl: (6) Could not resolve host"⟩ =
      "Error fetching URL (curl return code 6): curl: (6) Could not resolve host" ∧
    pyStartsWith
        (webfetch "http://example.com" (some 1000)
          ⟨6, "", "curl: (6) Could not resolve host"⟩) "Error: " = false := by
  exact ⟨by decide, by decide⟩

/-- C9 as amended: every error outcome of the embedded tool layer is
returned as data, a string beginning with `"Error"` — argument-validation
and not-found errors use the `"Error: "` prefix, while the transport and
wrapper errors use prefixes such as `"Error fetching URL"` and
`"Error from parent: "`, which is why the universal `"Error: "` prefix of
the claim fails. -/
theorem C9_errors_begin_with_error (url path old new tool_name rid : String)
    (file : Option String) (limit : Option Nat) (curl : CurlResult)
    (available_tools : List (String × ToolEntry)) (tool_key : String)
    (responses : List CtrlResponse) :
    (curl.returncode ≠ 0 →
      pyStartsWith (webfetch url limit curl) "Error" = true) ∧
    ((replace_in_file path old new file).1 = none →
      pyStartsWith (replace_in_file path old new file).2 "Error" = true) ∧
    ((replace_in_file_exec path old new file).1 = none →
      pyStartsWith (replace_in_file_exec path old new file).2 "Error" = true) ∧
    ((write_file path new).1 = none →
      pyStartsWith (write_file path new).2 "Error" = true) ∧
    (∀ msg, execute_mcp_tool_route available_tools false false tool_key =
        DispatchRoute.tool_not_found msg →
      pyStartsWith msg "Error: " = true) ∧
    (∀ err, forward_wait_response rid tool_name responses =
        "Error from parent: " ++ err →
      pyStartsWith (forward_wait_response rid tool_name responses) "Error" = true) ∧
    (responses = [] →
      pyStartsWith (forward_wait_response rid tool_name responses) "Error" = true) := by
  refine ⟨?_, ?_, ?_, ?_, ?_, ?_, ?_⟩
  · intro hrc
    rw [webfetch.eq_def]
    split
    · decide
    · split
      · exact pyStartsWith_append_left _ _ _ (pyStartsWith_append_left _ _ _
          (pyStartsWith_append_left _ _ _ (pyStartsWith_append_left _ _ _
            (pyStartsWith_append_left _ _ _ (by decide)))))
      · exact pyStartsWith_append_left _ _ _ (pyStartsWith_append_left _ _ _
          (pyStartsWith_append_left _ _ _ (by decide)))
  · rw [replace_in_file.eq_def]
    split
    · intro _; decide
    · split
      · intro _; decide
      · split
        · intro _
          exact pyStartsWith_append_left _ _ _ (by decide)
        · split
          · intro _
            exact pyStartsWith_append_left _ _ _ (by decide)
          · intro h
            simp at h
  · rw [replace_in_file_exec.eq_def]
    split
    · intro _; decide
    · split
      · intro _; decide
      · split
        · intro _
          exact pyStartsWith_append_left _ _ _ (by decide)
        · split
          · intro h
            simp at h
          · split
            · intro _
              exact pyStartsWith_append_left _ _ _ (pyStartsWith_append_left _ _ _
                (pyStartsWith_append_left _ _ _ (by decide)))
            · split
              · intro _
                exact pyStartsWith_append_left _ _ _ (pyStartsWith_append_left _ _ _
                  (pyStartsWith_append_left _ _ _ (pyStartsWith_append_left _ _ _
                    (by decide))))
              · intro _
                exact pyStartsWith_append_left _ _ _ (pyStartsWith_append_left _ _ _
                  (by decide))
  · rw [write_file]
    split
    · intro _; decide
    · intro h
      simp at h
  · intro msg hmsg
    rw [execute_mcp_tool_route] at hmsg
    revert hmsg
    split
    · intro hmsg
      cases hmsg
      exact pyStartsWith_append_left _ _ _ (pyStartsWith_append_left _ _ _
        (pyStartsWith_append_left _ _ _ (by decide)))
    · split
      · intro hmsg; exact DispatchRoute.noConfusion hmsg
      · split
        · intro hmsg; exact DispatchRoute.noConfusion hmsg
        · split
          · intro hmsg; exact DispatchRoute.noConfusion hmsg
          · intro hmsg; exact DispatchRoute.noConfusion hmsg
  · intro err herr
    rw [herr]
    exact pyStartsWith_append_left _ _ _ (by decide)
  · intro hnil
    rw [hnil, forward_wait_response]
    exact pyStartsWith_append_left _ _ _ (by decide)

/-- C9 witness: the amended prefix property at the counterexample's failed
curl fetch. -/
theorem C9_witness :
    ((6 : Int) ≠ 0) ∧
    pyStartsWith
        (webfetch "http://example.com" (some 1000)
          ⟨6, "", "curl: (6) Could not resolve host"⟩) "Error" = true :=
  ⟨by decide,
    (C9_errors_begin_with_error "http://example.com" "f.txt" "a" "b" "read_file" "r1" none
      (some 1000) ⟨6, "", "curl: (6) Could not resolve host"⟩ [] "k" []).1
      (by decide)⟩

/-!
## Claim C1 — ESC during streaming (`interactive_chat`, `agent.py`)

The streaming branch of `interactive_chat` puts the terminal in raw mode,
consumes the async chunk iterator, checks for ESC (and the interrupt flag)
at the top of every iteration, unconditionally restores the terminal
attributes in a `finally`, and then appends an assistant message guarded by
`if full_response:` — NOT by `if not interrupted:`, although its own comment
says "Only add if not interrupted".  The loop is embedded over the list of
chunks the model would stream, with `escAt = some i` meaning the ESC (or the
interrupt flag) is observed at the top of iteration `i`.
-/

/-- The chunk-consumption loop of the streaming branch: stop with
`interrupted = True` when ESC is seen, otherwise accumulate the chunk into
`full_response`. -/
def consume_stream (escAt : Option Nat) : List String → Nat → String → String × Bool
  | [], _, acc => (acc, false)
  | chunk :: rest, i, acc =>
    if escAt = some i then (acc, true)
    else consume_stream escAt rest (i + 1) (acc ++ chunk)

/-- Outcome of the whole streaming block: accumulated response, interrupt
flag, whether the `finally` restored the terminal attributes (it always
runs), and the assistant messages appended to the conversation. -/
structure StreamOutcome where
  full_response : String
  interrupted : Bool
  terminal_restored : Bool
  appended : List Message
deriving DecidableEq

/-- Embedding of the streaming branch of `interactive_chat` (`agent.py`):
`try`-consume / `finally`-restore, then
`if full_response: messages.append({"role": "assistant", ...})`. -/
def stream_response_block (chunks : List String) (escAt : Option Nat) : StreamOutcome :=
  { full_response := (consume_stream escAt chunks 0 "").1
    interrupted := (consume_stream escAt chunks 0 "").2
    terminal_restored := true
    appended :=
      if (consume_stream escAt chunks 0 "").1 ≠ "" then
        [⟨"assistant", (consume_stream escAt chunks 0 "").1⟩]
      else [] }

/-- C1 (code bug): with ESC arriving after the first chunk of
`["hello", "world"]`, the loop stops and the terminal is restored, but the
partial assistant message `"hello"` IS appended to the conversation —
`interactive_chat` guards the append with `if full_response:` rather than
`if not interrupted:`, contradicting both the claim and the code's own
comment.  (Only when ESC precedes the very first chunk is nothing
appended.) -/
theorem C1_partial_message_appended :
    (stream_response_block ["hello", "world"] (some 1)).interrupted = true ∧
    (stream_response_block ["hello", "world"] (some 1)).terminal_restored = true ∧
    (stream_response_block ["hello", "world"] (some 1)).full_response = "hello" ∧
    (stream_response_block ["hello", "world"] (some 1)).appended =
      [⟨"assistant", "hello"⟩] ∧
    (stream_response_block ["hello", "world"] (some 0)).appended = [] := by
  refine ⟨by decide, rfl, by decide, by decide, by decide⟩

/-!
## Claim C10 — `task_results` clears exactly the completed records
-/

/-- A record of `running_tasks` (`agent.py`): the fields read by
`_task_results`, `_check_all_tasks_completed` and
`_generate_consolidated_summary`.  Times are modelled as whole seconds
(`Nat`); `end_time` is optional because the dict key is set only on
completion. -/
structure TaskInfo where
  description : String
  start_time : Nat
  end_time : Option Nat
  completed : Bool
  result : Option String
  batch_id : String
deriving DecidableEq

/-- Python `f"{x:.2f}"` for a float holding the integral value `i` (all
times in the model are whole seconds). -/
def pyFmtF2 (i : Int) : String :=
  toString i ++ ".00"

/-- Embedding of `MCPAgent._task_results` (`agent.py`): build the textual
summary of completed (and, on request, running) tasks, then — when
`clear_after_retrieval` — delete every record whose `completed` flag is set.
Returns the reply and the new `running_tasks` map. -/
def task_results (include_running clear_after_retrieval : Bool)
    (running_tasks : List (String × TaskInfo)) (now : Nat) :
    String × List (String × TaskInfo) :=
  if running_tasks = [] then ("No tasks found.", running_tasks)
  else
    let task_count := running_tasks.length
    let completed_count := (running_tasks.filter (fun p => p.2.completed)).length
    let running_count := task_count - completed_count
    let header := ["=== TASK RESULTS SUMMARY ===",
      "Total tasks: " ++ toString task_count,
      "Completed: " ++ toString completed_count,
      "Running: " ++ toString running_count, ""]
    let completed_parts :=
      if 0 < completed_count then
        "=== COMPLETED TASKS ===" ::
          (running_tasks.filter (fun p => p.2.completed)).flatMap (fun p =>
            let line := "\n" ++ p.1 ++ ": " ++ p.2.description ++ " - ✅ Completed (" ++
              pyFmtF2 ((p.2.end_time.getD now : Int) - p.2.start_time) ++ "s)"
            let r := p.2.result.getD "No result"
            if r ≠ "" ∧ 10 < r.length then [line, "Result: " ++ r] else [line])
      else []
    let running_parts :=
      if include_running ∧ 0 < running_count then
        "\n=== RUNNING TASKS ===" ::
          (running_tasks.filter (fun p => ¬ p.2.completed)).map (fun p =>
            "\n" ++ p.1 ++ ": " ++ p.2.description ++ " - ⏳ Running (" ++
              pyFmtF2 ((now : Int) - p.2.start_time) ++ "s)")
      else []
    let to_remove := ((running_tasks.filter (fun p => p.2.completed)).map Prod.fst)
    let cleared_parts :=
      if clear_after_retrieval ∧ 0 < completed_count then
        ["\n--- " ++ toString to_remove.length ++ " completed tasks cleared from memory ---"]
      else []
    let new_tasks :=
      if clear_after_retrieval ∧ 0 < completed_count then
        running_tasks.filter (fun p => ¬ p.1 ∈ to_remove)
      else running_tasks
    (String.intercalate "\n" (header ++ completed_parts ++ running_parts ++ cleared_parts),
      new_tasks)

/-- A `SubagentTask` record as `BuiltinToolExecutor.task_results` reads it:
`completed`, `description`, `result` and `start_time`. -/
structure SubagentRecord where
  description : String
  completed : Bool
  result : Option String
  start_time : Nat
deriving DecidableEq

/-- Embedding of `BuiltinToolExecutor.task_results`
(`builtin_tool_executor.py`): collect completed (and, on request, running)
records, then — when `clear_after_retrieval` — remove the completed ones.
Returns the reply and the new `subagents` map. -/
def task_results_exec (include_running clear_after_retrieval : Bool)
    (subagents : List (String × SubagentRecord)) :
    String × List (String × SubagentRecord) :=
  let results := subagents.filter (fun p => p.2.completed || include_running)
  let tasks_to_remove :=
    if clear_after_retrieval then
      (subagents.filter (fun p => (p.2.completed || include_running) && p.2.completed)).map
        Prod.fst
    else []
  let new_subagents :=
    if clear_after_retrieval then subagents.filter (fun p => ¬ p.1 ∈ tasks_to_remove)
    else subagents
  if results = [] then ("No task results available", new_subagents)
  else
    let lines := ("Retrieved " ++ toString results.length ++ " task result(s):") ::
      results.flatMap (fun p =>
        ["\n--- Task: " ++ p.1 ++ " ---",
         "Description: " ++ p.2.description,
         "Status: " ++ (if p.2.completed then "completed" else "running"),
         "Result: " ++ (match p.2.result with
           | some r => if r = "" then "No result yet" else r
           | none => "No result yet")])
    let lines := if clear_after_retrieval ∧ tasks_to_remove ≠ [] then
        lines ++ ["\nCleared " ++ toString tasks_to_remove.length ++ " completed task(s)"]
      else lines
    (String.intercalate "\n" lines, new_subagents)

/-- Deleting by the keys of the records selected by `q` deletes exactly the
records satisfying `q`, provided the keys are unique. -/
theorem filter_key_not_mem {β : Type} (l : List (String × β)) (q : String × β → Bool)
    (hnodup : (l.map Prod.fst).Nodup) :
    l.filter (fun p => ¬ p.1 ∈ (l.filter q).map Prod.fst) = l.filter (fun p => ¬ q p) := by
  apply List.filter_congr
  intro p hp
  simp only [decide_eq_decide, List.mem_map, List.mem_filter]
  constructor
  · intro hnm
    intro hq
    exact hnm ⟨p, ⟨hp, hq⟩, rfl⟩
  · rintro hnq ⟨p', ⟨hp', hq'⟩, hkey⟩
    have := List.inj_on_of_nodup_map hnodup hp' hp hkey
    rw [this] at hq'
    exact hnq hq'

/-- C10: `task_results` with `clear_after_retrieval = true` (its default)
removes from the live task map exactly the records whose `completed` flag is
set at call time; the surviving (still-running) records are kept verbatim,
in order, with no field modified — in both the `agent.py` and the
builtin-executor implementation. -/
theorem C10_task_results_clears_completed (include_running : Bool) (now : Nat)
    (running_tasks : List (String × TaskInfo))
    (subagents : List (String × SubagentRecord))
    (h1 : (running_tasks.map Prod.fst).Nodup)
    (h2 : (subagents.map Prod.fst).Nodup) :
    (task_results include_running true running_tasks now).2 =
      running_tasks.filter (fun p => ¬ p.2.completed) ∧
    (task_results_exec include_running true subagents).2 =
      subagents.filter (fun p => ¬ p.2.completed) := by
  constructor
  · rw [task_results]
    split
    · rename_i h
      rw [h]
      simp
    · simp only []
      split
      · exact filter_key_not_mem running_tasks (fun p => p.2.completed) h1
      · rename_i hc
        have hzero : (running_tasks.filter (fun p => p.2.completed)).length = 0 := by
          rcases Nat.eq_zero_or_pos (running_tasks.filter (fun p => p.2.completed)).length
            with h0 | hpos
          · exact h0
          · exact absurd ⟨trivial, hpos⟩ hc
        have hnone : ∀ p ∈ running_tasks, p.2.completed = false := by
          intro p hp
          by_contra hcomp
          have : p ∈ running_tasks.filter (fun p => p.2.completed) :=
            List.mem_filter.mpr ⟨hp, by revert hcomp; cases p.2.completed <;> simp⟩
          rw [List.length_eq_zero.mp hzero] at this
          exact absurd this (List.not_mem_nil p)
        symm
        apply List.filter_eq_self.mpr
        intro p hp
        simp [hnone p hp]
  · rw [task_results_exec]
    simp only []
    have hq : subagents.filter
          (fun p => (p.2.completed || include_running) && p.2.completed) =
        subagents.filter (fun p => p.2.completed) := by
      apply List.filter_congr
      intro p hp
      cases p.2.completed <;> simp
    rw [hq]
    split
    · simp only [if_true]
      exact filter_key_not_mem subagents (fun p => p.2.completed) h2
    · simp only [if_true]
      exact filter_key_not_mem subagents (fun p => p.2.completed) h2

/-- C10 witness: a two-task map (one completed, one running); the cleared
map keeps exactly the running record. -/
theorem C10_witness :
    ((([("task_1", ⟨"d1", 0, some 5, true, some "r1", "batch_1"⟩),
        ("task_2", ⟨"d2", 1, none, false, none, "batch_1"⟩)] :
          List (String × TaskInfo)).map Prod.fst).Nodup) ∧
    (task_results false true
        [("task_1", ⟨"d1", 0, some 5, true, some "r1", "batch_1"⟩),
         ("task_2", ⟨"d2", 1, none, false, none, "batch_1"⟩)] 7).2 =
      ([("task_1", ⟨"d1", 0, some 5, true, some "r1", "batch_1"⟩),
        ("task_2", ⟨"d2", 1, none, false, none, "batch_1"⟩)] :
          List (String × TaskInfo)).filter (fun p => ¬ p.2.completed) :=
  ⟨by decide,
    (C10_task_results_clears_completed false 7
      [("task_1", ⟨"d1", 0, some 5, true, some "r1", "batch_1"⟩),
       ("task_2", ⟨"d2", 1, none, false, none, "batch_1"⟩)]
      [] (by decide) (by decide)).1⟩

/-!
## Subagent supervisor: batch completion (`agent.py`)

`_check_all_tasks_completed` groups `running_tasks` by `batch_id`, and for
the batch that (a) is the current batch, (b) has every记 record completed
and (c) holds more than one task, it prints one consolidated summary
(`_generate_consolidated_summary`) and deletes exactly that batch's records.
-/

/-- Python string comparison (code-point lexicographic `<=`) on character
lists, as `sorted` uses for the `task_<n>` ids. -/
def lexLe : List Char → List Char → Bool
  | [], _ => true
  | _ :: _, [] => false
  | c :: cs, d :: ds =>
    if c.toNat < d.toNat then true
    else if d.toNat < c.toNat then false
    else lexLe cs ds

/-- The sort key order of `sorted(batch_tasks.items())`: by task id (the
ids are unique, so the second tuple components never get compared). -/
def idLe (a b : String × TaskInfo) : Prop :=
  lexLe a.1.data b.1.data = true

instance : DecidableRel idLe :=
  fun a b => inferInstanceAs (Decidable (lexLe a.1.data b.1.data = true))

/-- `lexLe` is total. -/
theorem lexLe_total : ∀ a b : List Char, lexLe a b = true ∨ lexLe b a = true := by
  intro a
  induction a with
  | nil => intro b; left; rfl
  | cons x xs ih =>
    intro b
    cases b with
    | nil => right; rfl
    | cons y ys =>
      by_cases h1 : x.toNat < y.toNat
      · left; simp [lexLe, h1]
      · by_cases h2 : y.toNat < x.toNat
        · right; simp [lexLe, h2]
        · rcases ih ys with h | h
          · left; simp [lexLe, h1, h2, h]
          · right; simp [lexLe, h1, h2, h]

/-- `lexLe` is transitive. -/
theorem lexLe_trans : ∀ a b c : List Char,
    lexLe a b = true → lexLe b c = true → lexLe a c = true := by
  intro a
  induction a with
  | nil => intro b c _ _; rfl
  | cons x xs ih =>
    intro b c hab hbc
    cases b with
    | nil => simp [lexLe] at hab
    | cons y ys =>
      cases c with
      | nil => simp [lexLe] at hbc
      | cons z zs =>
        rw [lexLe] at hab hbc ⊢
        by_cases h1 : x.toNat < y.toNat
        · by_cases h2 : y.toNat < z.toNat
          · rw [if_pos (by omega)]
          · by_cases h2' : z.toNat < y.toNat
            · rw [if_neg h2, if_pos h2'] at hbc
              exact absurd hbc (by simp)
            · rw [if_pos (by omega)]
        · by_cases h1' : y.toNat < x.toNat
          · rw [if_neg h1, if_pos h1'] at hab
            exact absurd hab (by simp)
          · rw [if_neg h1, if_neg h1'] at hab
            by_cases h2 : y.toNat < z.toNat
            · rw [if_pos (by omega)]
            · by_cases h2' : z.toNat < y.toNat
              · rw [if_neg h2, if_pos h2'] at hbc
                exact absurd hbc (by simp)
              · rw [if_neg h2, if_neg h2'] at hbc
                rw [if_neg (by omega), if_neg (by omega)]
                exact ih ys zs hab hbc

instance : IsTotal (String × TaskInfo) idLe :=
  ⟨fun a b => lexLe_total a.1.data b.1.data⟩

instance : IsTrans (String × TaskInfo) idLe :=
  ⟨fun _ _ _ => lexLe_trans _ _ _⟩

/-- Python `sorted(batch_tasks.items())`: a stable ascending sort by task
id (keys are unique, so any sorted permutation is THE sorted order). -/
def sortTasks (l : List (String × TaskInfo)) : List (String × TaskInfo) :=
  l.insertionSort idLe

/-- First-occurrence deduplication: the iteration order of the keys of the
Python `batches` dict built by appending. -/
def firstDedup : List String → List String
  | [] => []
  | x :: xs => x :: firstDedup (xs.filter (fun y => y ≠ x))
termination_by l => l.length
decreasing_by
  exact Nat.lt_succ_of_le (List.length_filter_le _ _)

/-- Membership is preserved by `firstDedup`. -/
theorem mem_firstDedup : ∀ (l : List String) (a : String),
    a ∈ firstDedup l ↔ a ∈ l := by
  intro l
  induction l using firstDedup.induct with
  | case1 => intro a; rw [firstDedup]
  | case2 x xs ih =>
      intro a
      rw [firstDedup]
      simp only [List.mem_cons, ih]
      constructor
      · rintro (rfl | h)
        · exact Or.inl rfl
        · exact Or.inr (List.mem_of_mem_filter h)
      · rintro (rfl | h)
        · exact Or.inl rfl
        · by_cases hax : a = x
          · exact Or.inl hax
          · exact Or.inr (List.mem_filter.mpr ⟨h, by simp [hax]⟩)

/-- `firstDedup` produces distinct keys. -/
theorem nodup_firstDedup : ∀ (l : List String), (firstDedup l).Nodup := by
  intro l
  induction l using firstDedup.induct with
  | case1 => rw [firstDedup]; exact List.nodup_nil
  | case2 x xs ih =>
      rw [firstDedup]
      refine List.Nodup.cons ?_ ih
      intro hmem
      have := (mem_firstDedup _ _).mp hmem
      have := List.mem_filter.mp this
      simp at this

/-- Embedding of the batch grouping at the top of
`_check_all_tasks_completed`: Python iterates `running_tasks` appending each
record to `batches[batch_id]`, so the group keys come in first-occurrence
order and each group holds its batch's records in map order. -/
def groupByBatch (tasks : List (String × TaskInfo)) :
    List (String × List (String × TaskInfo)) :=
  (firstDedup (tasks.map (fun p => p.2.batch_id))).map
    (fun k => (k, tasks.filter (fun p => p.2.batch_id = k)))

/-- The `batch_tasks` dict comprehension of
`_generate_consolidated_summary`: the completed records of the requested
batch (of all batches when `batch_id` is `None`). -/
def summaryBatchTasks (batch_id : Option String)
    (running_tasks : List (String × TaskInfo)) : List (String × TaskInfo) :=
  match batch_id with
  | some b => running_tasks.filter (fun p => p.2.batch_id = b ∧ p.2.completed)
  | none => running_tasks.filter (fun p => p.2.completed)

/-- Python `min` over a nonempty list of naturals (`0` for the unreachable
empty case). -/
def minNat : List Nat → Nat
  | [] => 0
  | x :: xs => xs.foldl min x

/-- Python `max` over a nonempty list of naturals (`0` for the unreachable
empty case). -/
def maxNat : List Nat → Nat
  | [] => 0
  | x :: xs => xs.foldl max x

/-- The per-task section of the consolidated summary
(`_generate_consolidated_summary`'s loop body): Python enumerates the sorted
items from 1, skips non-completed records, and appends the result payload
only when it is non-empty and not the `"No result available"` default. -/
def taskBlock (now : Nat) (ip : Nat × (String × TaskInfo)) : List String :=
  if ¬ ip.2.2.completed then []
  else
    ["\n--- Task " ++ toString (ip.1 + 1) ++ ": " ++ ip.2.1 ++ " ---",
     "Description: " ++ ip.2.2.description,
     "Runtime: " ++ pyFmtF2 ((ip.2.2.end_time.getD now : Int) - ip.2.2.start_time) ++
       " seconds",
     "Status: " ++ (if ip.2.2.completed then "✅ Completed" else "⏳ Running"),
     ""] ++
    (if ip.2.2.result.getD "No result available" ≠ "" ∧
        ip.2.2.result.getD "No result available" ≠ "No result available" then
      ["Result:", ip.2.2.result.getD "No result available", ""]
    else [])

/-- Python `sep.join(parts)`. -/
def pyJoin (sep : String) : List String → String
  | [] => ""
  | [x] => x
  | x :: y :: rest => x ++ sep ++ pyJoin sep (y :: rest)

/-- The `summary_parts` list of `_generate_consolidated_summary` on its main
path (all times in the model are numeric, so the aggregate-runtime line is
always the `max(end) - min(start)` one; `completed_tasks` is
`batch_tasks.values()`, so the counts and time lists below range over the
batch's records). -/
def summaryParts (batch_id : Option String)
    (running_tasks : List (String × TaskInfo)) (now : Nat) : List String :=
  ["=== SUBAGENT TASK SUMMARY (" ++
      (match batch_id with
       | some b => if b = "" then "All Tasks" else b
       | none => "All Tasks") ++ ") ===",
   "Completed Tasks: " ++ toString (summaryBatchTasks batch_id running_tasks).length,
   "Total Runtime: " ++ pyFmtF2
     ((maxNat ((summaryBatchTasks batch_id running_tasks).map
         (fun p => p.2.end_time.getD now)) : Int) -
       minNat ((summaryBatchTasks batch_id running_tasks).map
         (fun p => p.2.start_time))) ++ " seconds",
   "",
   "=== INDIVIDUAL TASK RESULTS ==="] ++
  ((sortTasks (summaryBatchTasks batch_id running_tasks)).enum.flatMap (taskBlock now)) ++
  ["=== SUMMARY COMPLETE ===", "",
   "All parallel subagent tasks have finished. The above results are now available",
   "for your analysis and next steps."]

/-- Embedding of `MCPAgent._generate_consolidated_summary` (`agent.py`). -/
def generate_consolidated_summary (batch_id : Option String)
    (running_tasks : List (String × TaskInfo)) (now : Nat) : String :=
  if running_tasks = [] then "No completed tasks to summarize."
  else if summaryBatchTasks batch_id running_tasks = [] then
    "No completed tasks found for the specified batch."
  else pyJoin "\n" (summaryParts batch_id running_tasks now)

/-- The body of the per-batch loop of `_check_all_tasks_completed`: when
every record of the batch is completed, the batch holds more than one task
and it is the current batch, generate the consolidated summary from the
current map and delete the batch's records; otherwise do nothing. -/
def checkStep (current_batch_id : Option String) (now : Nat)
    (acc : List String × List (String × TaskInfo))
    (b : String × List (String × TaskInfo)) :
    List String × List (String × TaskInfo) :=
  if (b.2.filter (fun p => p.2.completed)).length = b.2.length ∧
      1 < (b.2.filter (fun p => p.2.completed)).length ∧
      some b.1 = current_batch_id then
    (acc.1 ++ [generate_consolidated_summary (some b.1) acc.2 now],
     acc.2.filter (fun p => ¬ p.1 ∈ b.2.map Prod.fst))
  else acc

/-- Embedding of `MCPAgent._check_all_tasks_completed` (`agent.py`): group
the live map by batch and run the per-batch check over every group.
Returns the list of consolidated summaries printed (the claim's emissions)
and the new `running_tasks` map. -/
def check_all_tasks_completed (running_tasks : List (String × TaskInfo))
    (current_batch_id : Option String) (now : Nat) :
    List String × List (String × TaskInfo) :=
  if running_tasks = [] then ([], running_tasks)
  else (groupByBatch running_tasks).foldl (checkStep current_batch_id now)
    ([], running_tasks)

/-- A substring occurrence: `x` occurs contiguously inside `s`. -/
def substringOf (x s : String) : Prop :=
  ∃ pre post, s = pre ++ (x ++ post)

/-- Every part of a join occurs as a substring of the join. -/
theorem substringOf_pyJoin_of_mem (x sep : String) :
    ∀ l : List String, x ∈ l → substringOf x (pyJoin sep l) := by
  intro l
  induction l with
  | nil => intro h; exact absurd h (List.not_mem_nil x)
  | cons a rest ih =>
      intro h
      cases rest with
      | nil =>
          rw [List.mem_singleton] at h
          subst h
          exact ⟨"", "", by simp [pyJoin]⟩
      | cons b t =>
          rcases List.mem_cons.mp h with rfl | h
          · exact ⟨"", sep ++ pyJoin sep (b :: t), by simp [pyJoin, String.append_assoc]⟩
          · obtain ⟨u, v, hv⟩ := ih h
            exact ⟨a ++ sep ++ u, v, by rw [pyJoin, hv]; simp [String.append_assoc]⟩

/-- A batch whose id is not the current one is skipped by the per-batch
check. -/
theorem checkStep_skip (current_batch_id : Option String) (now : Nat)
    (acc : List String × List (String × TaskInfo))
    (b : String × List (String × TaskInfo)) (h : ¬ some b.1 = current_batch_id) :
    checkStep current_batch_id now acc b = acc :=
  if_neg (fun hc => h hc.2.2)

/-- A run of batches none of which is the current one leaves the
accumulator untouched. -/
theorem foldl_checkStep_skip (current_batch_id : Option String) (now : Nat) :
    ∀ (gs : List (String × List (String × TaskInfo)))
      (acc : List String × List (String × TaskInfo)),
      (∀ g ∈ gs, ¬ some g.1 = current_batch_id) →
      gs.foldl (checkStep current_batch_id now) acc = acc := by
  intro gs
  induction gs with
  | nil => intro acc _; rfl
  | cons g rest ih =>
      intro acc h
      rw [List.foldl_cons, checkStep_skip _ _ _ _ (h g (List.mem_cons_self g rest))]
      exact ih acc (fun g' hg' => h g' (List.mem_cons_of_mem g hg'))

/-- The per-task section of a completed task with a real result payload
contains its header, description, runtime and result. -/
theorem mem_taskBlock (now : Nat) (i : Nat) (tid : String) (t : TaskInfo)
    (hc : t.completed = true)
    (hr1 : t.result.getD "No result available" ≠ "")
    (hr2 : t.result.getD "No result available" ≠ "No result available") :
    ("\n--- Task " ++ toString (i + 1) ++ ": " ++ tid ++ " ---") ∈
      taskBlock now (i, (tid, t)) ∧
    ("Description: " ++ t.description) ∈ taskBlock now (i, (tid, t)) ∧
    ("Runtime: " ++ pyFmtF2 ((t.end_time.getD now : Int) - t.start_time) ++ " seconds") ∈
      taskBlock now (i, (tid, t)) ∧
    (t.result.getD "No result available") ∈ taskBlock now (i, (tid, t)) := by
  rw [taskBlock]
  refine ⟨?_, ?_, ?_, ?_⟩ <;> simp [hc, hr1, hr2]

/-- Elements of the per-task sections are parts of the summary. -/
theorem mem_summaryParts_of_mem_block (batch_id : Option String)
    (running_tasks : List (String × TaskInfo)) (now : Nat) (x : String)
    (h : x ∈ (sortTasks (summaryBatchTasks batch_id running_tasks)).enum.flatMap
      (taskBlock now)) :
    x ∈ summaryParts batch_id running_tasks now := by
  unfold summaryParts
  exact List.mem_append.mpr (Or.inl (List.mem_append.mpr (Or.inr h)))

/-- C6: once every record of the current batch is completed and the batch
holds at least 2 tasks, `_check_all_tasks_completed` emits exactly one
consolidated summary and, together with the emission, removes exactly that
batch's records (the remaining map is the filter of the others; a second
run emits nothing and changes nothing).  The summary contains the batch id,
the task count, and the aggregate wall time `max(end) − min(start)` over
the batch, and iterates the tasks in sorted task-id order: for the i-th
smallest task id it contains the section header numbered `i+1` with that
id, the task's description, its per-task runtime string and its full
result payload. -/
theorem C6_batch_consolidation (running_tasks : List (String × TaskInfo))
    (cb : String) (now : Nat) (hcb : cb ≠ "")
    (hnodup : (running_tasks.map Prod.fst).Nodup)
    (hB2 : 2 ≤ (running_tasks.filter (fun p => p.2.batch_id = cb)).length)
    (hcomp : ∀ p ∈ running_tasks, p.2.batch_id = cb → p.2.completed = true)
    (hres : ∀ p ∈ running_tasks, p.2.batch_id = cb →
      p.2.result.getD "No result available" ≠ "" ∧
      p.2.result.getD "No result available" ≠ "No result available") :
    check_all_tasks_completed running_tasks (some cb) now =
      ([generate_consolidated_summary (some cb) running_tasks now],
       running_tasks.filter (fun p => ¬ p.2.batch_id = cb)) ∧
    check_all_tasks_completed
        (running_tasks.filter (fun p => ¬ p.2.batch_id = cb)) (some cb) now =
      ([], running_tasks.filter (fun p => ¬ p.2.batch_id = cb)) ∧
    substringOf ("=== SUBAGENT TASK SUMMARY (" ++ cb ++ ") ===")
      (generate_consolidated_summary (some cb) running_tasks now) ∧
    substringOf ("Completed Tasks: " ++
        toString (running_tasks.filter (fun p => p.2.batch_id = cb)).length)
      (generate_consolidated_summary (some cb) running_tasks now) ∧
    substringOf ("Total Runtime: " ++ pyFmtF2
        ((maxNat ((running_tasks.filter (fun p => p.2.batch_id = cb)).map
            (fun p => p.2.end_time.getD now)) : Int) -
          minNat ((running_tasks.filter (fun p => p.2.batch_id = cb)).map
            (fun p => p.2.start_time))) ++ " seconds")
      (generate_consolidated_summary (some cb) running_tasks now) ∧
    (∃ perm : List (String × TaskInfo),
      perm.Perm (running_tasks.filter (fun p => p.2.batch_id = cb)) ∧
      (perm.map Prod.fst).Pairwise (fun a b => lexLe a.data b.data = true) ∧
      ∀ i, (h : i < perm.length) →
        substringOf ("\n--- Task " ++ toString (i + 1) ++ ": " ++
            (perm.get ⟨i, h⟩).1 ++ " ---")
          (generate_consolidated_summary (some cb) running_tasks now) ∧
        substringOf ("Description: " ++ (perm.get ⟨i, h⟩).2.description)
          (generate_consolidated_summary (some cb) running_tasks now) ∧
        substringOf ("Runtime: " ++
            pyFmtF2 (((perm.get ⟨i, h⟩).2.end_time.getD now : Int) -
              (perm.get ⟨i, h⟩).2.start_time) ++ " seconds")
          (generate_consolidated_summary (some cb) running_tasks now) ∧
        substringOf ((perm.get ⟨i, h⟩).2.result.getD "No result available")
          (generate_consolidated_summary (some cb) running_tasks now)) := by
  have hBmem : ∀ p ∈ running_tasks.filter (fun p => p.2.batch_id = cb),
      p ∈ running_tasks ∧ p.2.batch_id = cb := by
    intro p hp
    have h := List.mem_filter.mp hp
    exact ⟨h.1, by simpa using h.2⟩
  have hBne : running_tasks.filter (fun p => p.2.batch_id = cb) ≠ [] := by
    intro h
    rw [h] at hB2
    simp at hB2
  obtain ⟨p0, hp0⟩ := List.exists_mem_of_ne_nil _ hBne
  have hne : running_tasks ≠ [] := by
    intro h
    have := (hBmem p0 hp0).1
    rw [h] at this
    exact absurd this (List.not_mem_nil p0)
  have hsb : summaryBatchTasks (some cb) running_tasks =
      running_tasks.filter (fun p => p.2.batch_id = cb) := by
    show running_tasks.filter (fun p => p.2.batch_id = cb ∧ p.2.completed) = _
    apply List.filter_congr
    intro p hp
    by_cases hb : p.2.batch_id = cb
    · simp [hb, hcomp p hp hb]
    · simp [hb]
  have hgen : generate_consolidated_summary (some cb) running_tasks now =
      pyJoin "\n" (summaryParts (some cb) running_tasks now) := by
    rw [generate_consolidated_summary, if_neg hne, if_neg (by rw [hsb]; exact hBne)]
  have hfilB : (running_tasks.filter (fun p => p.2.batch_id = cb)).filter
      (fun p => p.2.completed) = running_tasks.filter (fun p => p.2.batch_id = cb) :=
    List.filter_eq_self.mpr
      (fun p hp => by simp [hcomp p (hBmem p hp).1 (hBmem p hp).2])
  have hcbmem : cb ∈ running_tasks.map (fun p => p.2.batch_id) :=
    List.mem_map.mpr ⟨p0, (hBmem p0 hp0).1, (hBmem p0 hp0).2⟩
  obtain ⟨d1, d2, hd⟩ := List.append_of_mem ((mem_firstDedup _ cb).mpr hcbmem)
  have hnd := nodup_firstDedup (running_tasks.map (fun p => p.2.batch_id))
  rw [hd] at hnd
  have hcbnot := (List.nodup_cons.mp (List.nodup_middle.mp hnd)).1
  have hcb1 : cb ∉ d1 := fun h => hcbnot (List.mem_append.mpr (Or.inl h))
  have hcb2 : cb ∉ d2 := fun h => hcbnot (List.mem_append.mpr (Or.inr h))
  have hremove : running_tasks.filter (fun p =>
      ¬ p.1 ∈ ((running_tasks.filter (fun p => p.2.batch_id = cb)).map Prod.fst)) =
      running_tasks.filter (fun p => ¬ p.2.batch_id = cb) := by
    rw [filter_key_not_mem running_tasks (fun p => p.2.batch_id = cb) hnodup]
    apply List.filter_congr
    intro p _
    simp
  have hfire : checkStep (some cb) now ([], running_tasks)
      (cb, running_tasks.filter (fun p => p.2.batch_id = cb)) =
      ([generate_consolidated_summary (some cb) running_tasks now],
       running_tasks.filter (fun p => ¬ p.2.batch_id = cb)) := by
    rw [checkStep, if_pos ⟨by rw [hfilB], by rw [hfilB]; omega, rfl⟩]
    rw [List.nil_append]
    exact congrArg _ hremove
  have hmain : check_all_tasks_completed running_tasks (some cb) now =
      ([generate_consolidated_summary (some cb) running_tasks now],
       running_tasks.filter (fun p => ¬ p.2.batch_id = cb)) := by
    have hskip1 : (List.map (fun k =>
          (k, running_tasks.filter (fun p => p.2.batch_id = k))) d1).foldl
        (checkStep (some cb) now) ([], running_tasks) = ([], running_tasks) := by
      apply foldl_checkStep_skip
      intro g hg
      obtain ⟨k, hk, rfl⟩ := List.mem_map.mp hg
      intro he
      have h2 : k = cb := by injection he with h2
      rw [h2] at hk
      exact hcb1 hk
    have hskip2 : ∀ acc, (List.map (fun k =>
          (k, running_tasks.filter (fun p => p.2.batch_id = k))) d2).foldl
        (checkStep (some cb) now) acc = acc := by
      intro acc
      apply foldl_checkStep_skip
      intro g hg
      obtain ⟨k, hk, rfl⟩ := List.mem_map.mp hg
      intro he
      have h2 : k = cb := by injection he with h2
      rw [h2] at hk
      exact hcb2 hk
    rw [check_all_tasks_completed, if_neg hne, groupByBatch, hd, List.map_append,
      List.map_cons, List.foldl_append, hskip1, List.foldl_cons, hfire, hskip2]
  refine ⟨hmain, ?_, ?_, ?_, ?_, ?_⟩
  · by_cases hnil : running_tasks.filter (fun p => ¬ p.2.batch_id = cb) = []
    · rw [check_all_tasks_completed, if_pos hnil, hnil]
    · rw [check_all_tasks_completed, if_neg hnil]
      apply foldl_checkStep_skip
      intro g hg
      rw [groupByBatch] at hg
      obtain ⟨k, hk, rfl⟩ := List.mem_map.mp hg
      have hk2 := (mem_firstDedup _ k).mp hk
      obtain ⟨p, hp, hpk⟩ := List.mem_map.mp hk2
      have hpf := List.mem_filter.mp hp
      intro he
      have h2 : k = cb := by injection he with h2
      rw [h2] at hpk
      simp [hpk] at hpf
  · rw [hgen]
    apply substringOf_pyJoin_of_mem
    unfold summaryParts
    simp [hcb]
  · rw [hgen]
    apply substringOf_pyJoin_of_mem
    unfold summaryParts
    rw [hsb]
    simp
  · rw [hgen]
    apply substringOf_pyJoin_of_mem
    unfold summaryParts
    rw [hsb]
    simp
  · refine ⟨sortTasks (running_tasks.filter (fun p => p.2.batch_id = cb)),
      List.perm_insertionSort idLe _, ?_, ?_⟩
    · have hs := List.sorted_insertionSort idLe
        (running_tasks.filter (fun p => p.2.batch_id = cb))
      exact hs.map Prod.fst (fun a b hab => hab)
    · intro i h
      have hpB : (sortTasks (running_tasks.filter (fun p => p.2.batch_id = cb))).get
          ⟨i, h⟩ ∈ running_tasks.filter (fun p => p.2.batch_id = cb) :=
        (List.perm_insertionSort idLe _).mem_iff.mp (List.get_mem _ _ _)
      have hpc := hcomp _ (hBmem _ hpB).1 (hBmem _ hpB).2
      have hpr := hres _ (hBmem _ hpB).1 (hBmem _ hpB).2
      have henum : (i, (sortTasks (running_tasks.filter
          (fun p => p.2.batch_id = cb))).get ⟨i, h⟩) ∈
          (sortTasks (running_tasks.filter (fun p => p.2.batch_id = cb))).enum := by
        have h1 : (sortTasks (running_tasks.filter
            (fun p => p.2.batch_id = cb))).enum.get ⟨i, by simpa using h⟩ =
            (i, (sortTasks (running_tasks.filter
              (fun p => p.2.batch_id = cb))).get ⟨i, h⟩) := by
          simp [List.get_eq_getElem, List.getElem_enum]
        rw [← h1]
        exact List.get_mem _ _ _
      refine ⟨?_, ?_, ?_, ?_⟩ <;>
      · rw [hgen]
        apply substringOf_pyJoin_of_mem
        apply mem_summaryParts_of_mem_block
        rw [hsb]
        apply List.mem_flatMap.mpr
        refine ⟨(i, (sortTasks (running_tasks.filter
          (fun p => p.2.batch_id = cb))).get ⟨i, h⟩), henum, ?_⟩
        first
          | exact (mem_taskBlock now i _ _ hpc hpr.1 hpr.2).1
          | exact (mem_taskBlock now i _ _ hpc hpr.1 hpr.2).2.1
          | exact (mem_taskBlock now i _ _ hpc hpr.1 hpr.2).2.2.1
          | exact (mem_taskBlock now i _ _ hpc hpr.1 hpr.2).2.2.2

/-- C6 witness: a completed two-task current batch fires exactly one
consolidated summary and leaves the map without the batch's records. -/
theorem C6_witness :
    check_all_tasks_completed
        [("task_1", ⟨"d1", 0, some 5, true, some "r1", "batch_1"⟩),
         ("task_2", ⟨"d2", 1, some 6, true, some "r2", "batch_1"⟩)]
        (some "batch_1") 7 =
      ([generate_consolidated_summary (some "batch_1")
          [("task_1", ⟨"d1", 0, some 5, true, some "r1", "batch_1"⟩),
           ("task_2", ⟨"d2", 1, some 6, true, some "r2", "batch_1"⟩)] 7],
       ([("task_1", ⟨"d1", 0, some 5, true, some "r1", "batch_1"⟩),
         ("task_2", ⟨"d2", 1, some 6, true, some "r2", "batch_1"⟩)] :
           List (String × TaskInfo)).filter (fun p => ¬ p.2.batch_id = "batch_1")) :=
  (C6_batch_consolidation
    [("task_1", ⟨"d1", 0, some 5, true, some "r1", "batch_1"⟩),
     ("task_2", ⟨"d2", 1, some 6, true, some "r2", "batch_1"⟩)]
    "batch_1" 7 (by decide) (by decide) (by decide) (by decide) (by decide)).1
